import Mathlib

/-!
Verification development for the install orchestration engine of
`developer-platform-install`: the progress/ETA estimator (`ProgressState`),
the orchestration controller, the installable registry contract, and the
credential-manager helpers (`TokenStore.getUserName`, `TokenStore.getStatus`).

`browser/pages/install/controller.js` itself is not part of the source tree
available here (only its unit tests are), so `ProgressState`, the registry
contract and the controller are modelled from the specification; the
credential-manager functions are embedded directly from
`browser/services/credentialManager.js`.
-/

/- ## String helpers -/

/-- `startsList needle hay` is true when `hay` begins with `needle`
(character-list version of string "begins with"). -/
def startsList : List Char → List Char → Bool
  | [], _ => true
  | _ :: _, [] => false
  | a :: as, b :: bs => a == b && startsList as bs

/-- `hasSub needle hay` is true when `needle` occurs contiguously inside
`hay` (character-list version of string containment). -/
def hasSub (needle : List Char) : List Char → Bool
  | [] => startsList needle []
  | c :: t => startsList needle (c :: t) || hasSub needle t

/- ## Progress estimator -/

/-- Modelled from the spec: JavaScript `Math.round`, i.e. `floor (q + 1/2)`,
used when rendering the remaining-time estimate. -/
def ratRound (q : Rat) : Int := ⌊q + 1/2⌋

/-- Modelled from the spec: one unit of the ETA suffix, `"<n> <unit>"`,
with the singular form exactly when the rounded unit count is 1. -/
def unitWord (n : Int) (sing plur : String) : String :=
  toString n ++ " " ++ (if n == 1 then sing else plur)

/-- Modelled from the spec: rendering of a remaining time (milliseconds)
as seconds / minutes / hours / days / years, each unit singular when the
rounded count is exactly 1. The spec gives the unit words and the sample
outputs; the magnitude thresholds (60 s, 60 min, 24 h, 365 d) are the
ones consistent with those samples. -/
def formatTime (ms : Rat) : String :=
  let seconds := ratRound (ms / 1000)
  if seconds < 60 then unitWord seconds "sec" "secs"
  else
    let minutes := ratRound (ms / 60000)
    if minutes < 60 then unitWord minutes "min" "mins"
    else
      let hours := ratRound (ms / 3600000)
      if hours < 24 then unitWord hours "hr" "hrs"
      else
        let days := ratRound (ms / 86400000)
        if days < 365 then unitWord days "day" "days"
        else unitWord (ratRound (ms / 31536000000)) "year" "years"

/-- Modelled from the spec: the per-phase progress tracker `ProgressState`
of `browser/pages/install/controller.js` (not present in the source tree;
only its unit tests are). Bounds `min`/`max` default to 0/100, amounts and
percentage start at 0, `averageSpeed` is undefined until the first sample,
`lastTime` is the construction timestamp. The deferred UI notification
(`$timeout`) is modelled as a boolean "a refresh was scheduled" in the
return value of the mutating operations. -/
structure ProgressState where
  key : String := ""
  productName : String := ""
  productVersion : String := ""
  productDesc : String := ""
  current : Int := 0
  currentAmount : Rat := 0
  totalAmount : Rat := 0
  label : String := ""
  status : String := ""
  min : Int := 0
  max : Int := 100
  lastTime : Rat := 0
  averageSpeed : Option Rat := none

/-- Modelled from the spec: `setTotalAmount(total)` records the total size. -/
def ProgressState.setTotalAmount (p : ProgressState) (total : Rat) : ProgressState :=
  { p with totalAmount := total }

/-- Modelled from the spec: `sizeInKB(amount)`, the size rendering used in
the progress label (the spec fixes only that the label is built from it). -/
def sizeInKB (amount : Rat) : String :=
  toString ⌊amount / 1024⌋ ++ " KB"

/-- Modelled from the spec: `calculateTime()`. Elapsed time is `now − lastTime`
(with `lastTime` fixed at construction, preserved as observed); the
instantaneous rate is `currentAmount / elapsed`; `averageSpeed` becomes that
rate on the first sample and is otherwise smoothed with the fixed factor
`0.15`; the returned estimate is `(totalAmount − currentAmount) / averageSpeed`.
Returns the estimate together with the updated state. -/
def ProgressState.calculateTime (p : ProgressState) (now : Rat) : Rat × ProgressState :=
  let elapsed := now - p.lastTime
  let instRate := p.currentAmount / elapsed
  let newAvg :=
    match p.averageSpeed with
    | none => instRate
    | some avg => 15/100 * instRate + 85/100 * avg
  ((p.totalAmount - p.currentAmount) / newAvg, { p with averageSpeed := some newAvg })

/-- Modelled from the spec: the ETA suffix appended to the label when an
ETA is computable (`none` = not computable, nothing appended). -/
def etaSuffix : Option Rat → String
  | none => ""
  | some t => " (" ++ formatTime t ++ ")"

/-- Modelled from the spec: the core of `setCurrent(amount)` with the ETA
estimate passed in explicitly (the unit tests exercise exactly this shape by
stubbing `calculateTime`). No-op returning "no refresh" when
`amount == currentAmount`; otherwise sets `currentAmount`, recomputes
`current = floor(currentAmount / totalAmount * (max-min)) + min` clamped to
`[min, max]`, rebuilds the label and schedules a refresh. -/
def ProgressState.setCurrentWithTime (p : ProgressState) (amount : Rat)
    (eta : Option Rat) : ProgressState × Bool :=
  if amount == p.currentAmount then (p, false)
  else
    let raw := ⌊amount / p.totalAmount * ((p.max : Rat) - (p.min : Rat))⌋ + p.min
    let cur := Min.min p.max (Max.max p.min raw)
    let lbl := sizeInKB amount ++ " / " ++ sizeInKB p.totalAmount ++ " ("
      ++ toString cur ++ "%)" ++ etaSuffix eta
    ({ p with currentAmount := amount, current := cur, label := lbl }, true)

/-- Modelled from the spec: `setCurrent(amount)` at time `now`: no-op when
`amount == currentAmount`; otherwise updates `currentAmount`, runs
`calculateTime` on the updated amounts, and rebuilds the label, appending
the ETA suffix only when the estimate is computable (positive average
speed). -/
def ProgressState.setCurrent (p : ProgressState) (amount now : Rat) :
    ProgressState × Bool :=
  if amount == p.currentAmount then (p, false)
  else
    let tp := ProgressState.calculateTime { p with currentAmount := amount } now
    let eta : Option Rat :=
      match tp.2.averageSpeed with
      | some v => if 0 < v then some tp.1 else none
      | none => none
    ProgressState.setCurrentWithTime { p with averageSpeed := tp.2.averageSpeed } amount eta

/-- Modelled from the spec: `setStatus(status)`: no-op on equal status;
entering the downloading phase resets the counters and shows `"0%"`;
any other phase pins the percentage to 100 and clears the label. -/
def ProgressState.setStatus (p : ProgressState) (s : String) : ProgressState × Bool :=
  if s == p.status then (p, false)
  else if s == "Downloading" then
    ({ p with status := s, current := 0, currentAmount := 0, totalAmount := 0,
              label := "0%" }, true)
  else
    ({ p with status := s, current := 100, label := "" }, true)

/-- Modelled from the spec: `setComplete()` sets `status = "Complete"`,
`current = 100` and clears the label. -/
def ProgressState.setComplete (p : ProgressState) : ProgressState :=
  { p with status := "Complete", current := 100, label := "" }

/- ## Registry and orchestration controller -/

/-- Modelled from the spec: the capabilities of one installable unit that the
controller consults synchronously during construction (`isSkipped()`,
`isDownloadRequired()`). -/
structure InstallableUnit where
  isSkipped : Bool
  isDownloadRequired : Bool
deriving DecidableEq

/-- Modelled from the spec: the registry bookkeeping consumed by the
controller (in-flight sets `toDownload`/`toInstall`, flags
`downloading`/`installing`, completed keys). -/
structure Registry where
  downloading : Bool := false
  installing : Bool := false
  toDownload : List String := []
  toInstall : List String := []
  done : List String := []

/-- Modelled from the spec: `startDownload(key)` registers the key as
in-flight and flips the downloading flag. -/
def Registry.startDownload (r : Registry) (key : String) : Registry :=
  { r with toDownload := key :: r.toDownload, downloading := true }

/-- Modelled from the spec: `downloadDone(key)` retires the key and keeps the
downloading flag true exactly while some download is still in flight. -/
def Registry.downloadDone (r : Registry) (key : String) : Registry :=
  let rest := r.toDownload.erase key
  { r with toDownload := rest, downloading := !rest.isEmpty }

/-- Modelled from the spec: `startInstall(key)` registers the key as
in-flight and flips the installing flag. -/
def Registry.startInstall (r : Registry) (key : String) : Registry :=
  { r with toInstall := key :: r.toInstall, installing := true }

/-- Modelled from the spec: `installDone(key)` retires the key and keeps the
installing flag true exactly while some install is still in flight. -/
def Registry.installDone (r : Registry) (key : String) : Registry :=
  let rest := r.toInstall.erase key
  { r with toInstall := rest, installing := !rest.isEmpty }

/-- Modelled from the spec: `setupDone(key)` marks a (skipped) unit done. -/
def Registry.setupDone (r : Registry) (key : String) : Registry :=
  { r with done := key :: r.done }

/-- The registry invariant stated by the spec: the flags are true iff the
corresponding in-flight set is non-empty. -/
def Registry.invariant (r : Registry) : Prop :=
  (r.downloading = true ↔ r.toDownload ≠ []) ∧
  (r.installing = true ↔ r.toInstall ≠ [])

/-- The observable calls the controller makes while dispatching units. -/
inductive CtrlEvent where
  | setupDone (key : String)
  | processInstallable (key : String)
  | triggerDownload (key : String)
  | startDownload (key : String)
  | downloadInstaller (key : String)
  | triggerInstall (key : String)
  | installCall (key : String)
deriving DecidableEq

/-- Modelled from the spec: the synchronous call sequence of
`triggerDownload(key, unit)`: register with `registry.startDownload(key)`,
then invoke `unit.downloadInstaller(...)`. -/
def triggerDownloadTrace (key : String) : List CtrlEvent :=
  [CtrlEvent.triggerDownload key, CtrlEvent.startDownload key,
   CtrlEvent.downloadInstaller key]

/-- Modelled from the spec: the synchronous call sequence of
`triggerInstall(key, unit)`: invoke `unit.install(...)`. -/
def triggerInstallTrace (key : String) : List CtrlEvent :=
  [CtrlEvent.triggerInstall key, CtrlEvent.installCall key]

/-- Modelled from the spec: `processInstallable(key, unit)` dispatches to
`triggerDownload` when a download is required, else to `triggerInstall`. -/
def processInstallableTrace (key : String) (u : InstallableUnit) : List CtrlEvent :=
  CtrlEvent.processInstallable key ::
    (if u.isDownloadRequired then triggerDownloadTrace key else triggerInstallTrace key)

/-- Modelled from the spec: the controller constructor's handling of one
registry entry: skipped units are marked done via `setupDone`, all others go
through `processInstallable`. -/
def unitTrace (kv : String × InstallableUnit) : List CtrlEvent :=
  if kv.2.isSkipped then [CtrlEvent.setupDone kv.1]
  else processInstallableTrace kv.1 kv.2

/-- Modelled from the spec: the controller constructor iterates all
registered units in registry order. -/
def installControllerTrace (items : List (String × InstallableUnit)) : List CtrlEvent :=
  items.flatMap unitTrace

/-- Modelled from the spec: `triggerDownload(key, unit)` as a transition on
the registry, paired with its synchronous call trace. -/
def triggerDownload (r : Registry) (key : String) : Registry × List CtrlEvent :=
  (r.startDownload key, triggerDownloadTrace key)

/-- The key of the event that opens a unit's handling (`setupDone` for
skipped units, `processInstallable` otherwise). -/
def headKey : CtrlEvent → Option String
  | CtrlEvent.setupDone k => some k
  | CtrlEvent.processInstallable k => some k
  | _ => none

/- ## Credential manager (embedded from browser/services/credentialManager.js) -/

/-- JavaScript values as far as the credential manager observes them:
the possible results of `JSON.parse`. -/
inductive JsValue where
  | jnull
  | jbool (b : Bool)
  | jnum (q : Rat)
  | jstr (s : String)
  | jarr (elems : List JsValue)
  | jobj (fields : List (String × JsValue))

/-- JavaScript truthiness of a parsed JSON value (`null`, `false`, `0` and
`""` are falsy; objects and arrays are truthy). -/
def JsValue.truthy : JsValue → Bool
  | JsValue.jnull => false
  | JsValue.jbool b => b
  | JsValue.jnum q => !(q == 0)
  | JsValue.jstr s => !(s == "")
  | JsValue.jarr _ => true
  | JsValue.jobj _ => true

/-- JavaScript property access `data.username`: on `null` it throws a
`TypeError` (`Except.error ()`); on an object it yields the first binding
for the key, or `undefined` (`none`) when absent; on any other value it is
`undefined` (`none`) without throwing. -/
def JsValue.getField : JsValue → String → Except Unit (Option JsValue)
  | JsValue.jnull, _ => Except.error ()
  | JsValue.jobj fields, k => Except.ok (fields.lookup k)
  | _, _ => Except.ok none

/-- Embeds `TokenStore.getUserName` of `browser/services/credentialManager.js`.
The settings file under the platform's local app data directory is abstracted
to `none` (``fs.existsSync`` false), `some (Except.error ())` (file exists but
`JSON.parse` throws) or `some (Except.ok v)` (file exists and parses to `v`).
The function initialises `username = ''`, overwrites it with `data.username`
when that field is truthy, and returns it; a `JSON.parse` exception and the
`TypeError` thrown by `data.username` when the file parses to `null` both
propagate. -/
def getUserName (settingsFile : Option (Except Unit JsValue)) : Except Unit JsValue :=
  match settingsFile with
  | none => Except.ok (JsValue.jstr "")
  | some (Except.error e) => Except.error e
  | some (Except.ok data) =>
    match data.getField "username" with
    | Except.error e => Except.error e
    | Except.ok (some v) =>
        if v.truthy then Except.ok v else Except.ok (JsValue.jstr "")
    | Except.ok none => Except.ok (JsValue.jstr "")

/-- Skips JSON whitespace. -/
def skipWs : List Char → List Char
  | c :: cs =>
    if c == ' ' || c == '\t' || c == '\n' || c == '\r' then skipWs cs else c :: cs
  | [] => []

/-- Splits off a maximal run of leading decimal digits. -/
def takeDigits : List Char → List Char × List Char
  | c :: cs =>
    if c.isDigit then
      let split := takeDigits cs
      (c :: split.1, split.2)
    else ([], c :: cs)
  | [] => ([], [])

/-- Numeric value of a digit run. -/
def digitsToNat (ds : List Char) : Nat :=
  ds.foldl (fun acc c => 10 * acc + (c.toNat - 48)) 0

/-- Scans the body of a JSON string literal up to the closing quote
(escape sequences are outside the fragment of JSON this program stores). -/
def scanStrBody (acc : List Char) : List Char → Option (String × List Char)
  | [] => none
  | c :: cs =>
    if c == '"' then some (String.mk acc.reverse, cs) else scanStrBody (c :: acc) cs

/-- Parses a JSON number (optional minus sign, integer part). -/
def scanNumber (cs : List Char) : Option (JsValue × List Char) :=
  let split :=
    match cs with
    | '-' :: t => (true, t)
    | _ => (false, cs)
  match takeDigits split.2 with
  | ([], _) => none
  | (ds, rest) =>
    let n : Rat := (digitsToNat ds : Nat)
    some (JsValue.jnum (if split.1 then -n else n), rest)

/-- Parses one scalar JSON value (`null`, `true`, `false`, a number or a
string literal) from the head of the input. The values this program stores
under `rememberMe` are scalars, so this is the fragment of `JSON.parse`
the embedding models. -/
def scanScalar (cs : List Char) : Option (JsValue × List Char) :=
  if startsList "null".data cs then some (JsValue.jnull, cs.drop 4)
  else if startsList "true".data cs then some (JsValue.jbool true, cs.drop 4)
  else if startsList "false".data cs then some (JsValue.jbool false, cs.drop 5)
  else
    match cs with
    | '"' :: rest => scanStrBody [] rest
      |>.map (fun sr => (JsValue.jstr sr.1, sr.2))
    | _ => scanNumber cs

/-- `JSON.parse` on the scalar fragment: a parse failure is the thrown
`SyntaxError`. -/
def jsonParse (s : String) : Except Unit JsValue :=
  match scanScalar (skipWs s.data) with
  | some (v, rest) => if (skipWs rest).isEmpty then Except.ok v else Except.error ()
  | none => Except.error ()

/-- The JavaScript string coercion `JSON.parse` applies to its argument:
`localStorage.getItem` returns `null` when the key is absent, and
`JSON.parse(null)` coerces it to the string `"null"`. -/
def jsArgToString : Option String → String
  | none => "null"
  | some s => s

/-- `localStorage.getItem`: the store is a key-value list, absent keys
yield `null` (`none`). -/
def localStorageGetItem (store : List (String × String)) (k : String) : Option String :=
  store.lookup k

/-- Embeds `TokenStore.getStatus` of `browser/services/credentialManager.js`:
`JSON.parse(localStorage.getItem('rememberMe'))`. -/
def getStatus (store : List (String × String)) : Except Unit JsValue :=
  jsonParse (jsArgToString (localStorageGetItem store "rememberMe"))

/- ## Concrete states used by the witnesses -/

/-- A fresh estimator whose total amount has been set to 1000 (the scenario
of the `setCurrent` unit tests). -/
def p1W : ProgressState := ProgressState.setTotalAmount {} 1000

/-- The `calculateTime` test state: total 9,000,000, current 400,000,
`lastTime` 1000 ms before the sampled clock value 101000. -/
def p2W : ProgressState :=
  { totalAmount := 9000000, currentAmount := 400000, lastTime := 100000 }

/-- The smoothing test state: as `p2W` but with a prior average speed 800. -/
def p3W : ProgressState :=
  { totalAmount := 9000000, currentAmount := 400000, lastTime := 100000,
    averageSpeed := some 800 }

/-- The ETA-formatting test state: total 1000, current amount 100, so the
subsequent `setCurrent(101)` is state-changing. -/
def pC4 : ProgressState := { totalAmount := 1000, currentAmount := 100 }

/-- The label produced by a state-changing `setCurrent` on `pC4` whose
`calculateTime` result is stubbed to `t` milliseconds (exactly the shape of
the ETA unit tests). -/
def c4Label (t : Rat) : String :=
  (pC4.setCurrentWithTime 101 (some t)).1.label

/-- A two-unit registry content: unit `"a"` is skipped, unit `"b"` needs a
download. -/
def itemsW : List (String × InstallableUnit) :=
  [("a", ⟨true, false⟩), ("b", ⟨false, true⟩)]

/-- An idle registry (nothing in flight). -/
def regW : Registry := {}

/-- A parsed settings file that stores a user name. -/
def settingsW : JsValue := JsValue.jobj [("username", JsValue.jstr "bob")]

/- ## General lemmas about the embedding -/

theorem startsList_append (l m : List Char) : startsList l (l ++ m) = true := by
  induction l with
  | nil => rfl
  | cons a as ih => simp [startsList, ih]

theorem data_append (a b : String) : (a ++ b).data = a.data ++ b.data := rfl

theorem hasSub_append_right (n l m : List Char) (h : hasSub n m = true) :
    hasSub n (l ++ m) = true := by
  induction l with
  | nil => simpa using h
  | cons c t ih => simp [hasSub, ih]

/- ## Claims about the progress estimator -/

/-- Claim C7: `setCurrent(amount)` with `amount` equal to the current
`currentAmount` changes no field and schedules no UI refresh. -/
theorem setCurrent_noop_on_equal_amount (p : ProgressState) (amount now : Rat)
    (h : amount = p.currentAmount) :
    p.setCurrent amount now = (p, false) := by
  simp [ProgressState.setCurrent, h]

theorem setCurrent_noop_on_equal_amount_witness :
    ({} : ProgressState).setCurrent 0 5 = ({}, false) :=
  setCurrent_noop_on_equal_amount {} 0 5 rfl

/-- Claim C8: `setComplete()` always leaves `status = "Complete"`,
`current = 100` and an empty label, regardless of the prior state. -/
theorem setComplete_fields (p : ProgressState) :
    p.setComplete.status = "Complete" ∧ p.setComplete.current = 100 ∧
      p.setComplete.label = "" :=
  ⟨rfl, rfl, rfl⟩

/-- Claim C2: on a first sample (no prior `averageSpeed`) taken 1000 ms after
`lastTime` with `totalAmount = 9000000` and `currentAmount = 400000`,
`calculateTime` sets `averageSpeed` to the rate 400 units/ms and returns
`(9000000 - 400000) / 400`. -/
theorem calculateTime_first_sample (p : ProgressState) (now : Rat)
    (havg : p.averageSpeed = none) (helapsed : now - p.lastTime = 1000)
    (htot : p.totalAmount = 9000000) (hcur : p.currentAmount = 400000) :
    (p.calculateTime now).2.averageSpeed = some 400 ∧
      (p.calculateTime now).1 = (9000000 - 400000) / 400 := by
  constructor <;> simp [ProgressState.calculateTime, havg, helapsed, htot, hcur] <;> norm_num

theorem calculateTime_first_sample_witness :
    (p2W.calculateTime 101000).2.averageSpeed = some 400 ∧
      (p2W.calculateTime 101000).1 = 21500 := by
  have h := calculateTime_first_sample p2W 101000 rfl (by norm_num [p2W]) rfl rfl
  refine ⟨h.1, ?_⟩
  rw [h.2]
  norm_num

/-- Claim C3: with a prior `averageSpeed`, `calculateTime` replaces it by the
exponential smoothing `0.15 * instantaneous_rate + 0.85 * averageSpeed` and
returns the remaining amount divided by the new average. -/
theorem calculateTime_smoothing (p : ProgressState) (now avg : Rat)
    (h : p.averageSpeed = some avg) :
    (p.calculateTime now).2.averageSpeed =
        some (15/100 * (p.currentAmount / (now - p.lastTime)) + 85/100 * avg) ∧
      (p.calculateTime now).1 =
        (p.totalAmount - p.currentAmount) /
          (15/100 * (p.currentAmount / (now - p.lastTime)) + 85/100 * avg) := by
  constructor <;> simp [ProgressState.calculateTime, h]

theorem calculateTime_smoothing_witness :
    (p3W.calculateTime 101000).2.averageSpeed = some (15/100 * 400 + 85/100 * 800) ∧
      (p3W.calculateTime 101000).1 = (9000000 - 400000) / (15/100 * 400 + 85/100 * 800) := by
  have h := calculateTime_smoothing p3W 101000 800 rfl
  refine ⟨?_, ?_⟩
  · rw [h.1]
    norm_num [p3W]
  · rw [h.2]
    norm_num [p3W]

theorem setCurrentWithTime_fields (p : ProgressState) (amount : Rat)
    (eta : Option Rat) (hne : amount ≠ p.currentAmount) :
    (p.setCurrentWithTime amount eta).1.currentAmount = amount ∧
    (p.setCurrentWithTime amount eta).1.current =
      Min.min p.max (Max.max p.min
        (⌊amount / p.totalAmount * ((p.max : Rat) - (p.min : Rat))⌋ + p.min)) ∧
    (p.setCurrentWithTime amount eta).1.label =
      sizeInKB amount ++ " / " ++ sizeInKB p.totalAmount ++ " ("
        ++ toString (p.setCurrentWithTime amount eta).1.current ++ "%)"
        ++ etaSuffix eta ∧
    (p.setCurrentWithTime amount eta).2 = true := by
  refine ⟨?_, ?_, ?_, ?_⟩ <;> simp [ProgressState.setCurrentWithTime, hne]

theorem setCurrent_eq_withTime (p : ProgressState) (amount now : Rat)
    (hne : amount ≠ p.currentAmount) :
    p.setCurrent amount now =
      ProgressState.setCurrentWithTime
        { p with averageSpeed :=
            ((ProgressState.calculateTime { p with currentAmount := amount } now).2).averageSpeed }
        amount
        (match ((ProgressState.calculateTime { p with currentAmount := amount } now).2).averageSpeed with
         | some v =>
             if 0 < v then
               some ((ProgressState.calculateTime { p with currentAmount := amount } now).1)
             else none
         | none => none) := by
  simp [ProgressState.setCurrent, hne]

theorem withTime_updates (p : ProgressState) (amount : Rat) (eta : Option Rat)
    (hmin : p.min = 0) (hmax : p.max = 100) (hne : amount ≠ p.currentAmount) :
    (p.setCurrentWithTime amount eta).1.currentAmount = amount ∧
    (p.setCurrentWithTime amount eta).1.current =
      Min.min 100 (Max.max 0 ⌊amount / p.totalAmount * 100⌋) ∧
    startsList (sizeInKB amount ++ " / " ++ sizeInKB p.totalAmount ++ " ("
        ++ toString (p.setCurrentWithTime amount eta).1.current ++ "%)").data
      (p.setCurrentWithTime amount eta).1.label.data = true := by
  have hfields := setCurrentWithTime_fields p amount eta hne
  refine ⟨hfields.1, ?_, ?_⟩
  · rw [hfields.2.1, hmin, hmax]
    norm_num
  · rw [hfields.2.2.1, data_append]
    exact startsList_append _ _

/-- Claim C1: a state-changing `setCurrent(amount)` on an estimator with the
default bounds `min = 0`, `max = 100` and a total amount set stores the new
`currentAmount`, recomputes `current` as
`floor(currentAmount / totalAmount * (max - min)) + min` clamped to
`[min, max]`, and renders a label that begins with
`"<sizeInKB(currentAmount)> / <sizeInKB(totalAmount)> (<current>%)"`. -/
theorem setCurrent_updates (p : ProgressState) (amount now : Rat)
    (hmin : p.min = 0) (hmax : p.max = 100) (htot : 0 < p.totalAmount)
    (hne : amount ≠ p.currentAmount) :
    (p.setCurrent amount now).1.currentAmount = amount ∧
    (p.setCurrent amount now).1.current =
      Min.min 100 (Max.max 0 ⌊amount / p.totalAmount * 100⌋) ∧
    startsList (sizeInKB amount ++ " / " ++ sizeInKB p.totalAmount ++ " ("
        ++ toString (p.setCurrent amount now).1.current ++ "%)").data
      (p.setCurrent amount now).1.label.data = true := by
  rw [setCurrent_eq_withTime p amount now hne]
  exact withTime_updates _ amount _ hmin hmax hne

theorem setCurrent_updates_witness :
    p1W.min = 0 ∧ p1W.max = 100 ∧ (0 : Rat) < p1W.totalAmount ∧
    (100 : Rat) ≠ p1W.currentAmount ∧
    (p1W.setCurrent 100 500).1.currentAmount = 100 ∧
    (p1W.setCurrent 100 500).1.current = 10 ∧
    startsList (sizeInKB 100 ++ " / " ++ sizeInKB p1W.totalAmount ++ " ("
        ++ toString (p1W.setCurrent 100 500).1.current ++ "%)").data
      (p1W.setCurrent 100 500).1.label.data = true := by
  have h := setCurrent_updates p1W 100 500 rfl rfl
    (by norm_num [p1W, ProgressState.setTotalAmount])
    (by norm_num [p1W, ProgressState.setTotalAmount])
  refine ⟨rfl, rfl, by norm_num [p1W, ProgressState.setTotalAmount],
    by norm_num [p1W, ProgressState.setTotalAmount], h.1, ?_, h.2.2⟩
  rw [h.2.1]
  norm_num [p1W, ProgressState.setTotalAmount]

/-- Claim C4: on a state-changing `setCurrent` whose ETA estimate is `t`
milliseconds, the label's ETA suffix is rendered per time magnitude, singular
exactly when the rounded unit count is 1: 1000 ms renders as `"1 sec"` and
the label contains `"sec"`, 45000 ms as `"45 secs"`, 65000 ms as `"1 min"`,
125000 ms as `"2 mins"`, 3600000 ms as `"1 hr"`, 7200000 ms as `"2 hrs"`,
86400000 ms as `"1 day"`, 172800000 ms as `"2 days"`, 31536000000 ms as
`"1 year"` and 63072000000 ms as `"2 years"`. -/
theorem eta_suffix_rendering :
    (formatTime 1000 = "1 sec" ∧ hasSub "sec".data (c4Label 1000).data = true) ∧
    (formatTime 45000 = "45 secs" ∧ hasSub "secs".data (c4Label 45000).data = true) ∧
    (formatTime 65000 = "1 min" ∧ hasSub "min".data (c4Label 65000).data = true) ∧
    (formatTime 125000 = "2 mins" ∧ hasSub "mins".data (c4Label 125000).data = true) ∧
    (formatTime 3600000 = "1 hr" ∧ hasSub "hr".data (c4Label 3600000).data = true) ∧
    (formatTime 7200000 = "2 hrs" ∧ hasSub "hrs".data (c4Label 7200000).data = true) ∧
    (formatTime 86400000 = "1 day" ∧ hasSub "day".data (c4Label 86400000).data = true) ∧
    (formatTime 172800000 = "2 days" ∧ hasSub "days".data (c4Label 172800000).data = true) ∧
    (formatTime 31536000000 = "1 year" ∧ hasSub "year".data (c4Label 31536000000).data = true) ∧
    (formatTime 63072000000 = "2 years" ∧ hasSub "years".data (c4Label 63072000000).data = true) := by
  refine ⟨⟨?_, ?_⟩, ⟨?_, ?_⟩, ⟨?_, ?_⟩, ⟨?_, ?_⟩, ⟨?_, ?_⟩, ⟨?_, ?_⟩, ⟨?_, ?_⟩,
    ⟨?_, ?_⟩, ⟨?_, ?_⟩, ⟨?_, ?_⟩⟩ <;>
      norm_num [c4Label, pC4, ProgressState.setCurrentWithTime, sizeInKB, etaSuffix,
        formatTime, ratRound, unitWord] <;>
    decide

/- ## Claims about the orchestration controller -/

theorem unitTrace_count_absent (kv : String × InstallableUnit) (k : String)
    (hk : kv.1 ≠ k) :
    (unitTrace kv).count (CtrlEvent.setupDone k) = 0 ∧
    (unitTrace kv).count (CtrlEvent.processInstallable k) = 0 ∧
    (unitTrace kv).count (CtrlEvent.triggerDownload k) = 0 ∧
    (unitTrace kv).count (CtrlEvent.triggerInstall k) = 0 := by
  rcases kv with ⟨k', u⟩
  by_cases hs : u.isSkipped <;> by_cases hd : u.isDownloadRequired <;>
    simp_all [unitTrace, processInstallableTrace, triggerDownloadTrace,
      triggerInstallTrace, List.count_cons]

theorem unitTrace_counts_skipped (k : String) (u : InstallableUnit)
    (hs : u.isSkipped = true) :
    (unitTrace (k, u)).count (CtrlEvent.setupDone k) = 1 ∧
    (unitTrace (k, u)).count (CtrlEvent.triggerDownload k) = 0 ∧
    (unitTrace (k, u)).count (CtrlEvent.triggerInstall k) = 0 := by
  simp [unitTrace, hs, List.count_cons]

theorem unitTrace_counts_active (k : String) (u : InstallableUnit)
    (hs : u.isSkipped = false) :
    (unitTrace (k, u)).count (CtrlEvent.processInstallable k) = 1 := by
  by_cases hd : u.isDownloadRequired <;>
    simp [unitTrace, processInstallableTrace, triggerDownloadTrace,
      triggerInstallTrace, hs, hd, List.count_cons]

theorem trace_cons (kv : String × InstallableUnit)
    (rest : List (String × InstallableUnit)) :
    installControllerTrace (kv :: rest) = unitTrace kv ++ installControllerTrace rest := rfl

theorem trace_count_absent (items : List (String × InstallableUnit)) (k : String)
    (hk : k ∉ items.map Prod.fst) :
    (installControllerTrace items).count (CtrlEvent.setupDone k) = 0 ∧
    (installControllerTrace items).count (CtrlEvent.processInstallable k) = 0 ∧
    (installControllerTrace items).count (CtrlEvent.triggerDownload k) = 0 ∧
    (installControllerTrace items).count (CtrlEvent.triggerInstall k) = 0 := by
  induction items with
  | nil => simp [installControllerTrace]
  | cons kv rest ih =>
    rw [List.map_cons] at hk
    have hk1 : kv.1 ≠ k := fun h => hk (h ▸ List.mem_cons_self _ _)
    have hk2 : k ∉ rest.map Prod.fst := fun h => hk (List.mem_cons_of_mem _ h)
    have h1 := unitTrace_count_absent kv k hk1
    have h2 := ih hk2
    refine ⟨?_, ?_, ?_, ?_⟩ <;> rw [trace_cons, List.count_append]
    · rw [h1.1, h2.1]
    · rw [h1.2.1, h2.2.1]
    · rw [h1.2.2.1, h2.2.2.1]
    · rw [h1.2.2.2, h2.2.2.2]

theorem trace_count_mem (items : List (String × InstallableUnit)) (k : String)
    (u : InstallableUnit) (hmem : (k, u) ∈ items)
    (hnodup : (items.map Prod.fst).Nodup) :
    (u.isSkipped = true →
      (installControllerTrace items).count (CtrlEvent.setupDone k) = 1 ∧
      (installControllerTrace items).count (CtrlEvent.triggerDownload k) = 0 ∧
      (installControllerTrace items).count (CtrlEvent.triggerInstall k) = 0) ∧
    (u.isSkipped = false →
      (installControllerTrace items).count (CtrlEvent.processInstallable k) = 1) := by
  induction items with
  | nil => cases hmem
  | cons kv rest ih =>
    rw [List.map_cons] at hnodup
    have hnd := List.nodup_cons.mp hnodup
    rcases List.mem_cons.mp hmem with heq | hmemr
    · subst heq
      have hk2 : k ∉ rest.map Prod.fst := hnd.1
      have habs := trace_count_absent rest k hk2
      constructor
      · intro hs
        have hh := unitTrace_counts_skipped k u hs
        refine ⟨?_, ?_, ?_⟩ <;> rw [trace_cons, List.count_append]
        · rw [hh.1, habs.1]
        · rw [hh.2.1, habs.2.2.1]
        · rw [hh.2.2, habs.2.2.2]
      · intro hs
        rw [trace_cons, List.count_append, unitTrace_counts_active k u hs, habs.2.1]
    · have hkmem : k ∈ rest.map Prod.fst := List.mem_map.mpr ⟨(k, u), hmemr, rfl⟩
      have hk1 : kv.1 ≠ k := fun h => hnd.1 (h ▸ hkmem)
      have hhead := unitTrace_count_absent kv k hk1
      have ihh := ih hmemr hnd.2
      constructor
      · intro hs
        refine ⟨?_, ?_, ?_⟩ <;> rw [trace_cons, List.count_append]
        · rw [hhead.1, (ihh.1 hs).1]
        · rw [hhead.2.2.1, (ihh.1 hs).2.1]
        · rw [hhead.2.2.2, (ihh.1 hs).2.2]
      · intro hs
        rw [trace_cons, List.count_append, hhead.2.1, ihh.2 hs]

theorem unitTrace_headKey (kv : String × InstallableUnit) :
    (unitTrace kv).filterMap headKey = [kv.1] := by
  rcases kv with ⟨k', u⟩
  by_cases hs : u.isSkipped <;> by_cases hd : u.isDownloadRequired <;>
    simp [unitTrace, processInstallableTrace, triggerDownloadTrace,
      triggerInstallTrace, headKey, hs, hd]

theorem filterMap_headKey_trace (items : List (String × InstallableUnit)) :
    (installControllerTrace items).filterMap headKey = items.map Prod.fst := by
  induction items with
  | nil => rfl
  | cons kv rest ih =>
    rw [trace_cons, List.filterMap_append, ih, unitTrace_headKey, List.map_cons]
    rfl

/-- Claim C5: the controller constructor iterates the registered units in
registry order (the sequence of heads of the per-unit call sequences equals
the key order); for a skipped unit (under distinct keys) it calls
`registry.setupDone` exactly once and never `triggerDownload` or
`triggerInstall`; for a non-skipped unit it calls `processInstallable`
exactly once with the unit's key. -/
theorem ctor_dispatch (items : List (String × InstallableUnit)) (k : String)
    (u : InstallableUnit) (hmem : (k, u) ∈ items)
    (hnodup : (items.map Prod.fst).Nodup) :
    (u.isSkipped = true →
      (installControllerTrace items).count (CtrlEvent.setupDone k) = 1 ∧
      (installControllerTrace items).count (CtrlEvent.triggerDownload k) = 0 ∧
      (installControllerTrace items).count (CtrlEvent.triggerInstall k) = 0) ∧
    (u.isSkipped = false →
      (installControllerTrace items).count (CtrlEvent.processInstallable k) = 1) ∧
    (installControllerTrace items).filterMap headKey = items.map Prod.fst := by
  have h := trace_count_mem items k u hmem hnodup
  exact ⟨h.1, h.2, filterMap_headKey_trace items⟩

theorem ctor_dispatch_witness :
    (installControllerTrace itemsW).count (CtrlEvent.setupDone "a") = 1 ∧
    (installControllerTrace itemsW).count (CtrlEvent.triggerDownload "a") = 0 ∧
    (installControllerTrace itemsW).count (CtrlEvent.triggerInstall "a") = 0 ∧
    (installControllerTrace itemsW).count (CtrlEvent.processInstallable "b") = 1 ∧
    (installControllerTrace itemsW).filterMap headKey = ["a", "b"] := by
  have h1 := ctor_dispatch itemsW "a" ⟨true, false⟩ (by decide) (by decide)
  have h2 := ctor_dispatch itemsW "b" ⟨false, true⟩ (by decide) (by decide)
  refine ⟨(h1.1 rfl).1, (h1.1 rfl).2.1, (h1.1 rfl).2.2, h2.2.1 rfl, ?_⟩
  rw [h1.2.2]
  rfl

theorem startDownload_inv (r : Registry) (k : String) (h : r.invariant) :
    (r.startDownload k).invariant := by
  refine ⟨?_, h.2⟩
  simp [Registry.startDownload]

theorem downloadDone_inv (r : Registry) (k : String) (h : r.invariant) :
    (r.downloadDone k).invariant := by
  refine ⟨?_, h.2⟩
  cases h' : r.toDownload.erase k <;> simp [Registry.downloadDone, h']

theorem startInstall_inv (r : Registry) (k : String) (h : r.invariant) :
    (r.startInstall k).invariant := by
  refine ⟨h.1, ?_⟩
  simp [Registry.startInstall]

theorem installDone_inv (r : Registry) (k : String) (h : r.invariant) :
    (r.installDone k).invariant := by
  refine ⟨h.1, ?_⟩
  cases h' : r.toInstall.erase k <;> simp [Registry.installDone, h']

/-- Claim C6: `triggerDownload(key, unit)` calls `registry.startDownload(key)`
exactly once, before invoking `unit.downloadInstaller`; afterwards the key is
in `toDownload` and `downloading` is true, and the registry invariant —
`downloading`/`installing` hold iff the corresponding in-flight set is
non-empty — holds after the call and is preserved by every
`startDownload` / `downloadDone` / `startInstall` / `installDone`. -/
theorem triggerDownload_registers (r : Registry) (k k2 : String)
    (hinv : r.invariant) :
    (triggerDownload r k).2 =
      [CtrlEvent.triggerDownload k, CtrlEvent.startDownload k,
       CtrlEvent.downloadInstaller k] ∧
    (triggerDownload r k).2.count (CtrlEvent.startDownload k) = 1 ∧
    k ∈ (triggerDownload r k).1.toDownload ∧
    (triggerDownload r k).1.downloading = true ∧
    ((triggerDownload r k).1).invariant ∧
    (r.startDownload k2).invariant ∧ (r.downloadDone k2).invariant ∧
    (r.startInstall k2).invariant ∧ (r.installDone k2).invariant := by
  refine ⟨rfl, ?_, ?_, rfl, startDownload_inv r k hinv, startDownload_inv r k2 hinv,
    downloadDone_inv r k2 hinv, startInstall_inv r k2 hinv, installDone_inv r k2 hinv⟩
  · simp [triggerDownload, triggerDownloadTrace, List.count_cons]
  · exact List.mem_cons_self _ _

theorem triggerDownload_registers_witness :
    regW.invariant ∧
    (triggerDownload regW "x").2.count (CtrlEvent.startDownload "x") = 1 ∧
    "x" ∈ (triggerDownload regW "x").1.toDownload ∧
    (triggerDownload regW "x").1.downloading = true ∧
    ((triggerDownload regW "x").1).invariant := by
  have hinv : regW.invariant := by simp [Registry.invariant, regW]
  have h := triggerDownload_registers regW "x" "y" hinv
  exact ⟨hinv, h.2.1, h.2.2.1, h.2.2.2.1, h.2.2.2.2.1⟩

/- ## Claims about the credential manager -/

/-- Claim C9, counterexample: a settings file holding the valid JSON text
`null` parses, has no truthy `username` field, and yet `getUserName` does
not return the empty string — `data.username` on `null` throws a
`TypeError`, so the call raises. -/
theorem getUserName_null_counterexample :
    getUserName (some (Except.ok JsValue.jnull)) = Except.error () ∧
    getUserName (some (Except.ok JsValue.jnull)) ≠ Except.ok (JsValue.jstr "") := by
  refine ⟨rfl, ?_⟩
  intro h
  exact Except.noConfusion h

/-- Claim C9 (amended): `TokenStore.getUserName` returns the `username`
field of the parsed settings file when the file exists, parses, and that
field is truthy; it returns the empty string when the file does not exist,
or when the parsed contents are non-null and have no truthy `username`
field (field absent, or present but falsy); when the file parses to JSON
`null`, property access on `null` throws a `TypeError` instead. -/
theorem getUserName_spec :
    getUserName none = Except.ok (JsValue.jstr "") ∧
    (∀ j v, JsValue.getField j "username" = Except.ok (some v) → v.truthy = true →
      getUserName (some (Except.ok j)) = Except.ok v) ∧
    (∀ j, j ≠ JsValue.jnull →
      (∀ v, JsValue.getField j "username" = Except.ok (some v) → v.truthy = false) →
      getUserName (some (Except.ok j)) = Except.ok (JsValue.jstr "")) ∧
    getUserName (some (Except.ok JsValue.jnull)) = Except.error () := by
  refine ⟨rfl, ?_, ?_, rfl⟩
  · intro j v h1 h2
    simp [getUserName, h1, h2]
  · intro j hnull h
    cases j with
    | jnull => exact absurd rfl hnull
    | jobj fields =>
      cases hg : fields.lookup "username" with
      | none => simp [getUserName, JsValue.getField, hg]
      | some v =>
        have hv := h v (by simp [JsValue.getField, hg])
        simp [getUserName, JsValue.getField, hg, hv]
    | jbool b => simp [getUserName, JsValue.getField]
    | jnum q => simp [getUserName, JsValue.getField]
    | jstr s => simp [getUserName, JsValue.getField]
    | jarr elems => simp [getUserName, JsValue.getField]

theorem getUserName_spec_witness :
    getUserName (some (Except.ok settingsW)) = Except.ok (JsValue.jstr "bob") :=
  getUserName_spec.2.1 settingsW (JsValue.jstr "bob") rfl rfl

/-- Claim C10: `TokenStore.getStatus` returns the JSON-parsed value of the
`rememberMe` localStorage entry; when the entry is absent
(`localStorage.getItem` yields `null`), `JSON.parse` coerces `null` to the
string `"null"` and the call returns `null` instead of raising. -/
theorem getStatus_spec (store : List (String × String)) :
    (localStorageGetItem store "rememberMe" = none →
      getStatus store = Except.ok JsValue.jnull) ∧
    (∀ s, localStorageGetItem store "rememberMe" = some s →
      getStatus store = jsonParse s) := by
  constructor
  · intro h
    rw [getStatus, h]
    rfl
  · intro s h
    rw [getStatus, h]
    rfl

theorem getStatus_spec_witness :
    getStatus [] = Except.ok JsValue.jnull ∧
    getStatus [("rememberMe", "true")] = Except.ok (JsValue.jbool true) := by
  constructor
  · exact (getStatus_spec []).1 rfl
  · rw [(getStatus_spec [("rememberMe", "true")]).2 "true" rfl]
    rfl
